import Mathlib

/-!
Verification development for the live-data distribution engine of the
sailnavsim-websocket-connector repository (boat-data-live.go and its callers
in main.go).

Conventions of the shallow embedding:

* Go float64 values are modelled as rationals.  The two transcendental
  library routines the geospatial filter calls (math.Cos and math.Sqrt) and
  the constant math.Pi are either kept as explicit function/constant
  parameters of the embedded definitions (so theorems hold for every
  interpretation satisfying the stated hypotheses) or instantiated with the
  concrete executable rational approximations cosTaylor, sqrtApprox and
  piRat defined below.
* Go maps are modelled as functions into Option; a Go indexed read
  m[k] that silently yields the zero value is modelled by mapGet with an
  explicit default, matching Go map-read semantics.
* The line-oriented TCP exchanges are modelled by the list of read results
  a poll sees: each element is either a successfully read line (already
  stripped of its trailing newline by strings.Trim, which the embedding
  reproduces with trimNL on the raw string) or a read error (which also
  stands for a deadline expiry).  Exhaustion of the list stands for a read
  that can only end in a deadline error.
* A Go runtime panic (index out of range on the result of strings.Split)
  is modelled as the Option value none propagated out of the processing
  functions; every non-panicking outcome is wrapped in some.
* strconv.ParseFloat is library code external to the repository; it is kept
  as a parameter pf : String -> Option Rat of the line-processing
  definitions.
-/

/-- Models math.Round: rounds a rational to the nearest integer, halves away
from zero (the documented behavior of Go's math.Round). -/
def roundHalfAway (x : ℚ) : ℤ :=
  if 0 ≤ x then ⌊x + 1/2⌋ else -⌊-x + 1/2⌋

/-- Embedding of roundCourse (boat-data-live.go lines 551-559): quantizes a
course to the nearest 22.5 degrees at distance at least 6, 11.25 degrees at
distance at least 3, and 5.625 degrees otherwise. -/
def roundCourse (course distance : ℚ) : ℚ :=
  if 6 ≤ distance then (roundHalfAway (course / (45/2)) : ℚ) * (45/2)
  else if 3 ≤ distance then (roundHalfAway (course / (45/4)) : ℚ) * (45/4)
  else (roundHalfAway (course / (45/8)) : ℚ) * (45/8)

/-- Modelled from the spec: the repository's coordinate quantizer roundCoord,
which the test suite (boat-data-live_test.go, TestCoordRounding) exercises but
whose definition is absent from the provided sources.  Spec 4.1: step 0.0005
for distance at least 6; 0.0002 for [4,6); 0.0001 for [1.5,4); 0.00005 for
[0.8,1.5); 0.00002 for [0.4,0.8); 0.00001 for [0.15,0.4); 0.000005 for
[0.08,0.15); 0.000002 for [0.04,0.08); 0.000001 below 0.04; rounding is
round-half-away-from-zero applied to coord/step, then rescaled. -/
def roundCoord (coord distance : ℚ) : ℚ :=
  let step : ℚ :=
    if 6 ≤ distance then 5/10^4
    else if 4 ≤ distance then 2/10^4
    else if 3/2 ≤ distance then 1/10^4
    else if 8/10 ≤ distance then 5/10^5
    else if 4/10 ≤ distance then 2/10^5
    else if 15/100 ≤ distance then 1/10^5
    else if 8/100 ≤ distance then 5/10^6
    else if 4/100 ≤ distance then 2/10^6
    else 1/10^6
  (roundHalfAway (coord / step) : ℚ) * step

/-- Fuel-driven integer Newton iteration used by isqrt. -/
def isqrtAux : ℕ → ℕ → ℕ → ℕ
  | 0, _, g => g
  | fuel+1, n, g =>
    let next := (g + n / g) / 2
    if next < g then isqrtAux fuel n next else g

/-- Integer square root (floor) by Newton iteration; 100 fuel steps are ample
for every magnitude appearing in this development. -/
def isqrt (n : ℕ) : ℕ := if n ≤ 1 then n else isqrtAux 100 n n

/-- Concrete executable stand-in for math.Sqrt on the nonnegative rationals:
the integer square root of the input scaled by 10^12, rescaled, giving about
six exact decimal digits.  Exact on inputs whose value times 10^12 is a
perfect square (0, 36, 100, 400, ... as used in the concrete scenarios). -/
def sqrtApprox (q : ℚ) : ℚ := (isqrt (Int.toNat ⌊q * 10^12⌋) : ℚ) / 10^6

/-- Concrete rational stand-in for math.Pi (15 decimal digits, below the
resolution at which any comparison in this development is decided). -/
def piRat : ℚ := 3141592653589793 / 10^15

/-- Concrete executable stand-in for math.Cos: degree-6 Taylor polynomial of
the cosine, exact at 0 and accurate to well below 10^-3 on the argument range
(at most about 1.6 radians) that the distance code can produce. -/
def cosTaylor (x : ℚ) : ℚ := 1 - x^2/2 + x^4/24 - x^6/720

/-- Embedding of diffLon (boat-data-live.go lines 538-549): absolute
longitude difference with dateline-aware wraparound. -/
def diffLon (a b : ℚ) : ℚ :=
  let diff := |a - b|
  if 180 < diff then
    if a < b then |a + 360 - b| else |b + 360 - a|
  else diff

/-- Embedding of roughCloseDistance (boat-data-live.go lines 515-536),
parametric in the interpretations of math.Cos, math.Sqrt and math.Pi:
flat-approximation distance in nautical miles, with the mean latitude clamped
to [-89, 89], and a short-circuit return of 60 as soon as either axis
component alone exceeds 60. -/
def roughCloseDistance (cosine sqrtF : ℚ → ℚ) (pi : ℚ)
    (localLat localLon otherLat otherLon : ℚ) : ℚ :=
  let latMid0 := (localLat + otherLat) / 2
  let latMid := if 89 < latMid0 then 89 else if latMid0 < -89 then -89 else latMid0
  let yDiff := 60 * |localLat - otherLat|
  if 60 < yDiff then 60
  else
    let nmPerLonDeg := 60 * cosine (latMid * pi / 180)
    let xDiff := nmPerLonDeg * diffLon localLon otherLon
    if 60 < xDiff then 60
    else sqrtF (xDiff * xDiff + yDiff * yDiff)

/-- Embedding of the BoatDataLiveRespMsg struct (one polled sample). -/
structure BoatDataLiveRespMsg where
  lat : ℚ
  lon : ℚ
  ctw : ℚ
  stw : ℚ
  cog : ℚ
  sog : ℚ
  deriving Repr, DecidableEq

/-- The Go zero value of BoatDataLiveRespMsg, produced by reading a missing
key from a Go map of that value type. -/
def zeroBoatData : BoatDataLiveRespMsg := ⟨0, 0, 0, 0, 0, 0⟩

/-- Embedding of the BoatInfo struct: one group-roster entry. -/
structure BoatInfo where
  boatKey : String
  friendlyName : String
  deriving Repr, DecidableEq

/-- Embedding of the ConnCtx struct: the boat key a connection is associated
with, plus its group roster (none models the nil *list.List of a plain,
non-group subscription). -/
structure ConnCtx where
  boatKey : String
  groupBoats : Option (List BoatInfo)
  deriving Repr, DecidableEq

/-- The per-cycle sample mapping (Go: map[string]BoatDataLiveRespMsg). -/
def RespMap : Type := String → Option BoatDataLiveRespMsg

/-- Models an indexed Go map read m[k], which yields the zero value when the
key is absent. -/
def mapGet (resps : RespMap) (k : String) : BoatDataLiveRespMsg :=
  (resps k).getD zeroBoatData

/-- Models a Go map assignment on the per-cycle sample mapping. -/
def setResp (resps : RespMap) (k : String) (v : BoatDataLiveRespMsg) : RespMap :=
  fun q => if q = k then some v else resps q

/-- The sample mapping at the start of a poll cycle (Go: make(map...)). -/
def emptyResps : RespMap := fun _ => none

/-- The others mapping of a group payload (Go: map[string][3]float64, keyed
by friendly name, value lat/lon/course). -/
def OthersMap : Type := String → Option (ℚ × ℚ × ℚ)

/-- Models a Go map assignment on the others mapping. -/
def setOther (m : OthersMap) (k : String) (v : ℚ × ℚ × ℚ) : OthersMap :=
  fun q => if q = k then some v else m q

/-- The empty others mapping. -/
def emptyOthers : OthersMap := fun _ => none

/-- Embedding of the BoatGroupRespMsg struct: own sample plus the mapping for
qualifying nearby boats. -/
structure BoatGroupRespMsg where
  thisBoat : BoatDataLiveRespMsg
  otherBoats : OthersMap

/-- The member loop of createBoatGroupRespMsg (boat-data-live.go lines
490-507): for each roster entry, reads the member's sample with Go map
zero-value semantics, skips the subscriber's own key, computes the rough
distance from the subscriber's sample, skips the member when that distance
exceeds 15, and otherwise stores the member's latitude, longitude and
quantized course under its friendly name. -/
def buildOthers (cosine sqrtF : ℚ → ℚ) (pi : ℚ)
    (selfKey : String) (thisBoatData : BoatDataLiveRespMsg) (resps : RespMap) :
    List BoatInfo → OthersMap → OthersMap
  | [], others => others
  | b :: rest, others =>
    let otherBoatData := mapGet resps b.boatKey
    if selfKey = b.boatKey then
      buildOthers cosine sqrtF pi selfKey thisBoatData resps rest others
    else
      let dist := roughCloseDistance cosine sqrtF pi
        thisBoatData.lat thisBoatData.lon otherBoatData.lat otherBoatData.lon
      if 15 < dist then
        buildOthers cosine sqrtF pi selfKey thisBoatData resps rest others
      else
        buildOthers cosine sqrtF pi selfKey thisBoatData resps rest
          (setOther others b.friendlyName
            (otherBoatData.lat, otherBoatData.lon, roundCourse otherBoatData.ctw dist))

/-- Embedding of createBoatGroupRespMsg (boat-data-live.go lines 484-513). -/
def createBoatGroupRespMsg (cosine sqrtF : ℚ → ℚ) (pi : ℚ)
    (connCtx : ConnCtx) (resps : RespMap) : BoatGroupRespMsg :=
  let thisBoatData := mapGet resps connCtx.boatKey
  { thisBoat := mapGet resps connCtx.boatKey
    otherBoats := buildOthers cosine sqrtF pi connCtx.boatKey thisBoatData resps
      (connCtx.groupBoats.getD []) emptyOthers }

/-- Models strings.Trim(line, newline): strips newline characters from both
ends of the string. -/
def trimNL (s : String) : String :=
  String.mk (((s.toList.dropWhile (fun c => c = '\n')).reverse.dropWhile
    (fun c => c = '\n')).reverse)

/-- Helper for splitComma, structurally recursive on the character list. -/
def splitCommaAux : List Char → List Char → List (List Char)
  | [], acc => [acc.reverse]
  | c :: rest, acc =>
    if c = ',' then acc.reverse :: splitCommaAux rest []
    else splitCommaAux rest (c :: acc)

/-- Models strings.Split(line, comma): the list of comma-separated fields
(always nonempty, empty fields preserved). -/
def splitComma (s : String) : List String :=
  (splitCommaAux s.toList []).map (fun l => String.mk l)

/-- Embedding of the response-line dispatch of getBoatDataLiveResps
(boat-data-live.go lines 336-384), parametric in the interpretation pf of
strconv.ParseFloat.  Outcomes: none models a runtime panic (an index out of
range on the split fields, which in Go aborts the polling goroutine and hence
the process); some none models a line that adds no sample (noboat, an
unexpected code, or a float field that fails to parse); some (some (k, m))
models a parsed sample for the echoed key k.  The field indexing is
sequential exactly as in the source: s[2] first, then for an ok line
alternately index and parse s[3] through s[8], so a parse failure on an early
field is a silent skip even when later fields are missing.  The echoed key
s[1] always exists here because indexing s[2] succeeded. -/
def processLiveLine (pf : String → Option ℚ) (line : String) :
    Option (Option (String × BoatDataLiveRespMsg)) :=
  let s := splitComma line
  match s.get? 2 with
  | none => none
  | some code =>
    if code = "ok" then
      match s.get? 3 with
      | none => none
      | some f3 =>
        match pf f3 with
        | none => some none
        | some lat =>
          match s.get? 4 with
          | none => none
          | some f4 =>
            match pf f4 with
            | none => some none
            | some lon =>
              match s.get? 5 with
              | none => none
              | some f5 =>
                match pf f5 with
                | none => some none
                | some ctw =>
                  match s.get? 6 with
                  | none => none
                  | some f6 =>
                    match pf f6 with
                    | none => some none
                    | some stw =>
                      match s.get? 7 with
                      | none => none
                      | some f7 =>
                        match pf f7 with
                        | none => some none
                        | some cog =>
                          match s.get? 8 with
                          | none => none
                          | some f8 =>
                            match pf f8 with
                            | none => some none
                            | some sog =>
                              some (some ((s.get? 1).getD "",
                                ⟨lat, lon, ctw, stw, cog, sog⟩))
    else
      some none

/-- Embedding of the bounded read loop of getBoatDataLiveResps
(boat-data-live.go lines 320-385): reads at most numTracked lines; a read
error (or exhaustion of the stream, which in reality is a read blocking until
the deadline errors) breaks out, as does a literal error line; a panic from
line processing propagates; every other line updates the accumulated sample
mapping and the loop continues. -/
def readLiveLoop (pf : String → Option ℚ) :
    ℕ → List (Except Unit String) → RespMap → Option RespMap
  | 0, _, resps => some resps
  | _+1, [], resps => some resps
  | _+1, (Except.error _) :: _, resps => some resps
  | i+1, (Except.ok raw) :: rest, resps =>
    let line := trimNL raw
    if line = "error" then some resps
    else
      match processLiveLine pf line with
      | none => none
      | some none => readLiveLoop pf i rest resps
      | some (some (k, m)) => readLiveLoop pf i rest (setResp resps k m)

/-- Embedding of getBoatDataLiveResps (boat-data-live.go lines 290-391).
keysEmpty models len(keys) == 0 (skip the backend call); dialOk models
whether net.DialTimeout and SetDeadline succeeded; numTracked models
len(trackedBoats); lines models the per-cycle sequence of read results. -/
def getBoatDataLiveResps (pf : String → Option ℚ) (keysEmpty dialOk : Bool)
    (numTracked : ℕ) (lines : List (Except Unit String)) : Option RespMap :=
  if keysEmpty then some emptyResps
  else if !dialOk then some emptyResps
  else readLiveLoop pf numTracked lines emptyResps

/-- Embedding of the read loop of getBoatsInGroup (boat-data-live.go lines
409-447).  The outer Option models a panic (index out of range); the inner
Option models the Go nil result (failure).  In the start state only the
header line is examined: a transport error or a literal error line or a
non-ok code fails the fetch, a header with fewer than 3 fields panics.
Afterwards a blank line terminates the roster, a roster line with fewer than
2 fields panics, and an entry whose friendly name is the sentinel is
excluded. -/
def readGroupLoop : List (Except Unit String) → Bool → List BoatInfo →
    Option (Option (List BoatInfo))
  | [], _, _ => some none
  | (Except.error _) :: _, _, _ => some none
  | (Except.ok raw) :: rest, start, acc =>
    let line := trimNL raw
    if start then
      if line = "error" then some none
      else
        match (splitComma line).get? 2 with
        | none => none
        | some code =>
          if code = "ok" then readGroupLoop rest false acc
          else some none
    else if line = "" then some (some acc)
    else
      match (splitComma line).get? 1 with
      | none => none
      | some fn =>
        if fn = "!" then readGroupLoop rest false acc
        else readGroupLoop rest false
          (acc ++ [⟨(splitComma line).headD "", fn⟩])

/-- Embedding of getBoatsInGroup (boat-data-live.go lines 393-448): dialOk
models whether net.DialTimeout and SetDeadline succeeded (failure returns the
nil roster), then the read loop runs from the start state. -/
def getBoatsInGroup (dialOk : Bool) (lines : List (Except Unit String)) :
    Option (Option (List BoatInfo)) :=
  if !dialOk then some none
  else readGroupLoop lines true []

/-- Decides whether a character matches the class [0-9a-f]. -/
def isLowerHexDigit (c : Char) : Bool :=
  (('0' ≤ c && c ≤ '9') || ('a' ≤ c && c ≤ 'f'))

/-- Models the anchored regular expression match on the 32-character
lowercase-hex boat-key format (boat-data-live.go line 64). -/
def validBoatKey (s : String) : Bool :=
  s.length == 32 && s.toList.all isLowerHexDigit

/-- The tracked-boats map (Go: map[string]*TrackedBoatEntry); since the entry
stores its own key redundantly, only the reference count is modelled. -/
def TrackedMap : Type := String → Option ℕ

/-- The empty tracked-boats map. -/
def emptyTracked : TrackedMap := fun _ => none

/-- Models the uint64 increment of a reference count. -/
def inc64 (c : ℕ) : ℕ := (c + 1) % 2^64

/-- Models the uint64 decrement of a reference count (wrapping at zero, as
the Go uint64 decrement would). -/
def dec64 (c : ℕ) : ℕ := (c + (2^64 - 1)) % 2^64

/-- Embedding of trackBoat (boat-data-live.go lines 462-472): create an entry
with count 1 for a new key, otherwise increment the entry's count. -/
def trackBoat (m : TrackedMap) (boatKey : String) : TrackedMap :=
  match m boatKey with
  | none => fun q => if q = boatKey then some 1 else m q
  | some c => fun q => if q = boatKey then some (inc64 c) else m q

/-- Embedding of untrackBoat (boat-data-live.go lines 474-482): for a key
with an entry, decrement the count and delete the entry when the decremented
count is zero; a key with no entry is left untouched. -/
def untrackBoat (m : TrackedMap) (boatKey : String) : TrackedMap :=
  match m boatKey with
  | none => m
  | some c =>
    let c2 := dec64 c
    if c2 = 0 then fun q => if q = boatKey then none else m q
    else fun q => if q = boatKey then some c2 else m q

/-- Embedding of trackBoats (boat-data-live.go lines 450-454): track the key
of every roster entry in order. -/
def trackBoats (m : TrackedMap) (boats : List BoatInfo) : TrackedMap :=
  boats.foldl (fun acc b => trackBoat acc b.boatKey) m

/-- Embedding of untrackBoats (boat-data-live.go lines 456-460): untrack the
key of every roster entry in order. -/
def untrackBoats (m : TrackedMap) (boats : List BoatInfo) : TrackedMap :=
  boats.foldl (fun acc b => untrackBoat acc b.boatKey) m

/-- The shared registry state: the connection map (connection handles are
modelled as naturals), the key-to-connections index, the tracked-boats map
and the cumulative connection counter. -/
structure RegState where
  conns : ℕ → Option ConnCtx
  keys : String → Option (List ℕ)
  tracked : TrackedMap
  countConns : ℕ

/-- The second half of wsReqBoatDataLive (boat-data-live.go lines 118-126):
append the connection to the list its boat key maps to, creating the list
when absent. -/
def addKeyConn (keys : String → Option (List ℕ)) (boatKey : String) (conn : ℕ) :
    String → Option (List ℕ) :=
  match keys boatKey with
  | some l => fun q => if q = boatKey then some (l ++ [conn]) else keys q
  | none => fun q => if q = boatKey then some [conn] else keys q

/-- Embedding of wsReqBoatDataLive (boat-data-live.go lines 72-127).  The
groupFetch argument is the outcome the in-handler call to getBoatsInGroup
would produce for this request (none models the nil roster of a failed
resolution).  The returned Bool is true exactly when the handler closed the
connection (every rejection path closes it before returning). -/
def wsReqBoatDataLive (st : RegState) (conn : ℕ) (reqBoatKey : String)
    (withGroup : Bool) (groupFetch : Option (List BoatInfo)) : RegState × Bool :=
  if !validBoatKey reqBoatKey then (st, true)
  else
    match st.conns conn with
    | some _ => (st, true)
    | none =>
      if withGroup then
        match groupFetch with
        | none => (st, true)
        | some groupBoats =>
          let st1 : RegState :=
            { st with
              conns := fun q => if q = conn then
                some ⟨reqBoatKey, some groupBoats⟩ else st.conns q
              tracked := trackBoats st.tracked groupBoats
              countConns := st.countConns + 1 }
          ({ st1 with keys := addKeyConn st1.keys reqBoatKey conn }, false)
      else
        let st1 : RegState :=
          { st with
            conns := fun q => if q = conn then
              some ⟨reqBoatKey, none⟩ else st.conns q
            tracked := trackBoat st.tracked reqBoatKey
            countConns := st.countConns + 1 }
        ({ st1 with keys := addKeyConn st1.keys reqBoatKey conn }, false)

/-- One subscription-lifecycle event for the reference-counting model: a
subscribe carries the connection handle and the list of tracked-key
references it creates (the single boat key of a plain subscription, or every
roster member key of a group subscription, exactly the keys trackBoat or
trackBoats is called on in wsReqBoatDataLive); an unsubscribe names the
connection whose references the poll loop releases through untrackBoat or
untrackBoats (boat-data-live.go lines 227-236). -/
inductive SubOp where
  | sub (conn : ℕ) (refs : List String)
  | unsub (conn : ℕ)
  deriving Repr, DecidableEq

/-- The live-subscription ledger: for each not-yet-unsubscribed connection,
the tracked-key references it holds. -/
def LiveSubs : Type := List (ℕ × List String)

/-- Applies one event to the ledger and the tracked-boats map, calling the
embedded trackBoat and untrackBoat exactly as the handler and the poll loop
do; an unsubscribe for an unknown connection (which the program never
performs) is a no-op. -/
def applySubOp (s : LiveSubs × TrackedMap) (op : SubOp) : LiveSubs × TrackedMap :=
  match op with
  | SubOp.sub conn refs =>
    ((conn, refs) :: s.1, refs.foldl trackBoat s.2)
  | SubOp.unsub conn =>
    match s.1.find? (fun p => p.1 = conn) with
    | none => s
    | some p =>
      (s.1.eraseP (fun q => q.1 = conn), p.2.foldl untrackBoat s.2)

/-- Runs a sequence of subscription-lifecycle events from a state. -/
def runSubOps (s : LiveSubs × TrackedMap) : List SubOp → LiveSubs × TrackedMap
  | [] => s
  | op :: rest => runSubOps (applySubOp s op) rest

/-- The number of live references naming a key: one per occurrence of the key
in the reference list of each not-yet-unsubscribed connection. -/
def refCnt (k : String) (live : LiveSubs) : ℕ :=
  (live.map (fun p => p.2.count k)).sum

/-- The total number of references a sequence of events could ever create. -/
def totalSubRefs : List SubOp → ℕ
  | [] => 0
  | SubOp.sub _ refs :: rest => refs.length + totalSubRefs rest
  | SubOp.unsub _ :: rest => totalSubRefs rest

/-- The tracked-boats map agrees with the ledger: a key has an entry exactly
when some live reference names it, and the stored count is exactly the number
of live references naming it. -/
def TrackedAgrees (live : LiveSubs) (m : TrackedMap) : Prop :=
  ∀ k : String, m k = if refCnt k live = 0 then none else some (refCnt k live)

/-- Rounding half away from zero lands within half a unit of the input. -/
lemma roundHalfAway_close (x : ℚ) : |(roundHalfAway x : ℚ) - x| ≤ 1/2 := by
  unfold roundHalfAway
  split
  · have h1 : (⌊x + 1/2⌋ : ℚ) ≤ x + 1/2 := Int.floor_le _
    have h2 : x + 1/2 - 1 < (⌊x + 1/2⌋ : ℚ) := Int.sub_one_lt_floor _
    rw [abs_le]
    exact ⟨by linarith, by linarith⟩
  · have h1 : (⌊-x + 1/2⌋ : ℚ) ≤ -x + 1/2 := Int.floor_le _
    have h2 : -x + 1/2 - 1 < (⌊-x + 1/2⌋ : ℚ) := Int.sub_one_lt_floor _
    rw [abs_le]
    constructor <;> push_cast <;> linarith

/-- Rounding to the nearest multiple of a positive step lands within half a
step of the input. -/
lemma roundMult_close (c step : ℚ) (h : 0 < step) :
    |(roundHalfAway (c / step) : ℚ) * step - c| ≤ step / 2 := by
  have key : (roundHalfAway (c / step) : ℚ) * step - c
      = ((roundHalfAway (c / step) : ℚ) - c / step) * step := by
    field_simp
  rw [key, abs_mul, abs_of_pos h]
  have := roundHalfAway_close (c / step)
  calc |(roundHalfAway (c / step) : ℚ) - c / step| * step
      ≤ (1/2) * step := by
        exact mul_le_mul_of_nonneg_right this (le_of_lt h)
    _ = step / 2 := by ring

/-- C6: for every course value and distance, roundCourse returns a multiple
of 22.5 degrees within 11.25 degrees of the course when the distance is at
least 6 nm, a multiple of 11.25 degrees within 5.625 degrees of the course
when the distance is in [3, 6) nm, and a multiple of 5.625 degrees within
2.8125 degrees of the course when the distance is below 3 nm - that is, the
course rounded to the nearest multiple of the tier step. -/
theorem c6_roundCourse_tiers (c d : ℚ) :
    (6 ≤ d → (∃ k : ℤ, roundCourse c d = k * (45/2)) ∧ |roundCourse c d - c| ≤ 45/4) ∧
    (3 ≤ d → d < 6 → (∃ k : ℤ, roundCourse c d = k * (45/4)) ∧ |roundCourse c d - c| ≤ 45/8) ∧
    (d < 3 → (∃ k : ℤ, roundCourse c d = k * (45/8)) ∧ |roundCourse c d - c| ≤ 45/16) := by
  refine ⟨fun h6 => ?_, fun h3 h6 => ?_, fun h3 => ?_⟩
  · rw [roundCourse, if_pos h6]
    refine ⟨⟨roundHalfAway (c / (45/2)), rfl⟩, ?_⟩
    have := roundMult_close c (45/2) (by norm_num)
    linarith [this]
  · rw [roundCourse, if_neg (by linarith), if_pos h3]
    refine ⟨⟨roundHalfAway (c / (45/4)), rfl⟩, ?_⟩
    have := roundMult_close c (45/4) (by norm_num)
    linarith [this]
  · rw [roundCourse, if_neg (by linarith), if_neg (by linarith)]
    refine ⟨⟨roundHalfAway (c / (45/8)), rfl⟩, ?_⟩
    have := roundMult_close c (45/8) (by norm_num)
    linarith [this]

/-- Witness for C6 at course 14 and distance 10 (the 22.5-degree tier). -/
theorem c6_roundCourse_tiers_witness :
    (6:ℚ) ≤ 10 ∧
      ((∃ k : ℤ, roundCourse 14 10 = k * (45/2)) ∧ |roundCourse 14 10 - 14| ≤ 45/4) :=
  ⟨by norm_num, (c6_roundCourse_tiers 14 10).1 (by norm_num)⟩

/-- The embedded diffLon is symmetric in its two arguments. -/
lemma diffLon_comm (a b : ℚ) : diffLon a b = diffLon b a := by
  unfold diffLon
  rw [abs_sub_comm a b]
  by_cases h : 180 < |b - a|
  · rw [if_pos h, if_pos h]
    have hne : a ≠ b := by
      intro he
      rw [he, sub_self, abs_zero] at h
      linarith
    rcases lt_or_gt_of_ne hne with hlt | hgt
    · rw [if_pos hlt, if_neg (not_lt.mpr (le_of_lt hlt))]
    · rw [if_neg (not_lt.mpr (le_of_lt hgt)), if_pos hgt]
  · rw [if_neg h, if_neg h]

/-- The embedded roughCloseDistance is symmetric in its two input points,
whatever interpretation of cosine, square root and pi is used. -/
lemma roughCloseDistance_comm (cosine sqrtF : ℚ → ℚ) (pi : ℚ)
    (lat lon lat2 lon2 : ℚ) :
    roughCloseDistance cosine sqrtF pi lat lon lat2 lon2 =
      roughCloseDistance cosine sqrtF pi lat2 lon2 lat lon := by
  unfold roughCloseDistance
  rw [add_comm lat2 lat, abs_sub_comm lat2 lat, diffLon_comm lon2 lon]

/-- C8: the embedded distance of a point to itself is zero (for any
interpretation where the square root of zero is zero, as for math.Sqrt), and
the distance is symmetric in its two points - exactly, hence in particular
within the 0.01 nm tolerance. -/
theorem c8_distance_self_zero_and_symmetric (cosine sqrtF : ℚ → ℚ) (pi : ℚ)
    (hs0 : sqrtF 0 = 0) (lat lon lat2 lon2 : ℚ) :
    roughCloseDistance cosine sqrtF pi lat lon lat lon = 0 ∧
    |roughCloseDistance cosine sqrtF pi lat lon lat2 lon2 -
      roughCloseDistance cosine sqrtF pi lat2 lon2 lat lon| ≤ 1/100 := by
  constructor
  · unfold roughCloseDistance diffLon
    simp only [sub_self, abs_zero, mul_zero, zero_mul]
    norm_num [hs0]
  · rw [roughCloseDistance_comm cosine sqrtF pi lat lon lat2 lon2]
    simp

/-- The concrete square-root stand-in sends zero to zero. -/
lemma sqrtApprox_zero : sqrtApprox 0 = 0 := by
  have h1 : (⌊((0:ℚ) * 10^12)⌋ : ℤ) = 0 := by norm_num
  rw [sqrtApprox, h1]
  norm_num [isqrt]

/-- Witness for C8 with the concrete interpretations, at the points
(45, -63) and (45.1, -62.9). -/
theorem c8_distance_self_zero_and_symmetric_witness :
    sqrtApprox 0 = 0 ∧
      (roughCloseDistance cosTaylor sqrtApprox piRat 45 (-63) 45 (-63) = 0 ∧
        |roughCloseDistance cosTaylor sqrtApprox piRat 45 (-63) (451/10) (-629/10) -
          roughCloseDistance cosTaylor sqrtApprox piRat (451/10) (-629/10) 45 (-63)| ≤ 1/100) :=
  ⟨sqrtApprox_zero,
    c8_distance_self_zero_and_symmetric cosTaylor sqrtApprox piRat
      sqrtApprox_zero 45 (-63) (451/10) (-629/10)⟩

/-- C10: every rejected subscribe request - invalid boat-key format, a second
subscribe on a connection that already has an association, or a failed group
roster resolution - closes the connection and leaves the whole registry state
(connection map, key index, tracked-boats map, cumulative counter) exactly as
it was. -/
theorem c10_rejected_subscribe_preserves_registry (st : RegState) (conn : ℕ)
    (key : String) (wg : Bool) (gf : Option (List BoatInfo))
    (h : validBoatKey key = false ∨ (st.conns conn).isSome = true ∨
      (wg = true ∧ gf = none)) :
    wsReqBoatDataLive st conn key wg gf = (st, true) := by
  unfold wsReqBoatDataLive
  rcases h with h | h | ⟨hwg, hgf⟩
  · simp [h]
  · by_cases hv : validBoatKey key = true
    · rcases Option.isSome_iff_exists.mp h with ⟨ctx, hc⟩
      simp [hv, hc]
    · have hvf : validBoatKey key = false := by
        revert hv
        cases validBoatKey key <;> simp
      simp [hvf]
  · subst hwg
    subst hgf
    by_cases hv : validBoatKey key = true
    · cases hcc : st.conns conn with
      | some ctx => simp [hv, hcc]
      | none => simp [hv, hcc]
    · have hvf : validBoatKey key = false := by
        revert hv
        cases validBoatKey key <;> simp
      simp [hvf]

/-- An example registry state used by the C10 witness. -/
def regStateEx : RegState :=
  { conns := fun _ => none
    keys := fun _ => none
    tracked := emptyTracked
    countConns := 5 }

/-- Witness for C10: a request with a malformed boat key is rejected and the
registry state is returned untouched. -/
theorem c10_rejected_subscribe_preserves_registry_witness :
    validBoatKey "not-hex" = false ∧
      wsReqBoatDataLive regStateEx 7 "not-hex" false none = (regStateEx, true) :=
  ⟨by decide,
    c10_rejected_subscribe_preserves_registry regStateEx 7 "not-hex" false none
      (Or.inl (by decide))⟩

/-- On two points sharing a longitude, the embedded distance reduces to the
square root of the squared north-south component (once that component does
not trip the short circuit), for any interpretation of cosine and pi. -/
lemma roughCloseDistance_same_lon (cosine sqrtF : ℚ → ℚ) (pi : ℚ)
    (la lo lb : ℚ) (h : 60 * |la - lb| ≤ 60) :
    roughCloseDistance cosine sqrtF pi la lo lb lo =
      sqrtF ((60 * |la - lb|) * (60 * |la - lb|)) := by
  unfold roughCloseDistance diffLon
  rw [if_neg (not_lt.mpr h)]
  simp only [sub_self, abs_zero]
  rw [if_neg (by norm_num : ¬ (180:ℚ) < 0)]
  rw [mul_zero, if_neg (by norm_num : ¬ (60:ℚ) < 0), zero_mul, zero_add]

/-- The concrete square-root stand-in is exact at 36. -/
lemma sqrtApprox_36 : sqrtApprox 36 = 6 := by
  have h1 : (⌊((36:ℚ) * 10^12)⌋ : ℤ) = 36000000000000 := by norm_num
  have h3 : Int.toNat 36000000000000 = 36000000000000 := rfl
  have h2 : isqrt 36000000000000 = 6000000 := by decide
  rw [sqrtApprox, h1, h3, h2]
  norm_num

/-- The concrete square-root stand-in is exact at 100. -/
lemma sqrtApprox_100 : sqrtApprox 100 = 10 := by
  have h1 : (⌊((100:ℚ) * 10^12)⌋ : ℤ) = 100000000000000 := by norm_num
  have h3 : Int.toNat 100000000000000 = 100000000000000 := rfl
  have h2 : isqrt 100000000000000 = 10000000 := by decide
  rw [sqrtApprox, h1, h3, h2]
  norm_num

/-- The concrete square-root stand-in is exact at 400. -/
lemma sqrtApprox_400 : sqrtApprox 400 = 20 := by
  have h1 : (⌊((400:ℚ) * 10^12)⌋ : ℤ) = 400000000000000 := by norm_num
  have h3 : Int.toNat 400000000000000 = 400000000000000 := rfl
  have h2 : isqrt 400000000000000 = 20000000 := by decide
  rw [sqrtApprox, h1, h3, h2]
  norm_num

/-- Course 14 quantized at distance 10 is 22.5 degrees. -/
lemma roundCourse_14_10 : roundCourse 14 10 = 45/2 := by
  rw [roundCourse, if_pos (by norm_num : (6:ℚ) ≤ 10)]
  rw [roundHalfAway, if_pos (by norm_num : (0:ℚ) ≤ 14 / (45/2))]
  rw [show (14:ℚ) / (45/2) + 1/2 = 101/90 by norm_num]
  rw [show (⌊(101/90 : ℚ)⌋ : ℤ) = 1 by norm_num]
  norm_num

/-- Course 0 quantized at distance 6 is 0. -/
lemma roundCourse_0_6 : roundCourse 0 6 = 0 := by
  rw [roundCourse, if_pos (by norm_num : (6:ℚ) ≤ 6)]
  rw [roundHalfAway, if_pos (by norm_num)]
  norm_num

/-- Connection context for the C1 scenario: subscriber key a with one group
member b under friendly name Bravo. -/
def ctxC1 : ConnCtx := ⟨"a", some [⟨"b", "Bravo"⟩]⟩

/-- Poll-cycle samples for the C1 scenario: the subscriber at latitude 0,
longitude 50; the member at latitude 1/6 (10 nm further north), longitude 50,
course through water 14. -/
def respsC1 : RespMap := fun k =>
  if k = "a" then some ⟨0, 50, 90, 5, 92, 51/10⟩
  else if k = "b" then some ⟨1/6, 50, 14, 5, 15, 5⟩
  else none

/-- C1 (against the claim): in the C1 scenario the member is 10 nm away, and
the group payload carries the member's raw backend latitude 1/6 verbatim,
whereas the coordinate quantizer of the spec (validated below against the
repository's own test vectors) would emit 333/2000; only the course is
quantized.  The claim that member coordinates always pass through the
coordinate quantizer is therefore false of this code. -/
theorem c1_group_payload_carries_raw_coordinates :
    (createBoatGroupRespMsg cosTaylor sqrtApprox piRat ctxC1 respsC1).otherBoats
        "Bravo" = some (1/6, 50, 45/2) ∧
      roundCoord (1/6) 10 = 333/2000 ∧ ((1:ℚ)/6) ≠ 333/2000 := by
  refine ⟨?_, ?_, by norm_num⟩
  · have hma : mapGet respsC1 "a" = ⟨0, 50, 90, 5, 92, 51/10⟩ := by
      simp [mapGet, respsC1]
    have hmb : mapGet respsC1 "b" = ⟨1/6, 50, 14, 5, 15, 5⟩ := by
      simp [mapGet, respsC1]
    have habs : (60:ℚ) * |(0:ℚ) - 1/6| = 10 := by
      rw [show (0:ℚ) - 1/6 = -(1/6) by ring, abs_neg, abs_of_nonneg (by norm_num)]
      norm_num
    have hdist : roughCloseDistance cosTaylor sqrtApprox piRat 0 50 (1/6) 50 = 10 := by
      rw [roughCloseDistance_same_lon cosTaylor sqrtApprox piRat 0 50 (1/6)
        (by rw [habs]; norm_num)]
      rw [habs]
      norm_num [sqrtApprox_100]
    show (createBoatGroupRespMsg cosTaylor sqrtApprox piRat ctxC1 respsC1).otherBoats
        "Bravo" = some (1/6, 50, 45/2)
    unfold createBoatGroupRespMsg
    simp only [ctxC1, Option.getD, buildOthers, hma, hmb]
    rw [if_neg (by decide : ¬ ("a" = "b"))]
    simp only [hdist]
    rw [if_neg (by norm_num : ¬ (15:ℚ) < 10)]
    simp [buildOthers, setOther, roundCourse_14_10]
  · rw [roundCoord]
    simp only [if_pos (by norm_num : (6:ℚ) ≤ 10)]
    rw [roundHalfAway, if_pos (by norm_num : (0:ℚ) ≤ (1/6 : ℚ) / (5/10^4))]
    rw [show ((1:ℚ)/6) / (5/10^4) + 1/2 = 2003/6 by norm_num]
    rw [show (⌊(2003/6 : ℚ)⌋ : ℤ) = 333 by norm_num]
    norm_num

/-- The spec-modelled coordinate quantizer reproduces all twelve expectation
pairs of the repository's own TestCoordRounding (boat-data-live_test.go lines
169-206) for the coordinate 123.4567373, corroborating that the model matches
the repository's missing roundCoord. -/
lemma roundCoord_matches_repository_tests :
    roundCoord (1234567373/10^7) 100 = 1234565/10^4 ∧
    roundCoord (1234567373/10^7) 50 = 1234565/10^4 ∧
    roundCoord (1234567373/10^7) 6 = 1234565/10^4 ∧
    roundCoord (1234567373/10^7) 4 = 1234568/10^4 ∧
    roundCoord (1234567373/10^7) (3/2) = 1234567/10^4 ∧
    roundCoord (1234567373/10^7) (8/10) = 12345675/10^5 ∧
    roundCoord (1234567373/10^7) (4/10) = 12345674/10^5 ∧
    roundCoord (1234567373/10^7) (15/100) = 12345674/10^5 ∧
    roundCoord (1234567373/10^7) (8/100) = 123456735/10^6 ∧
    roundCoord (1234567373/10^7) (4/100) = 123456738/10^6 ∧
    roundCoord (1234567373/10^7) (15/1000) = 123456737/10^6 ∧
    roundCoord (1234567373/10^7) (15/10000) = 123456737/10^6 := by
  refine ⟨?_, ?_, ?_, ?_, ?_, ?_, ?_, ?_, ?_, ?_, ?_, ?_⟩ <;>
    norm_num [roundCoord, roundHalfAway]

/-- Connection context for the C2 scenario: subscriber key a with one group
member b under friendly name Bravo. -/
def ctxC2 : ConnCtx := ⟨"a", some [⟨"b", "Bravo"⟩]⟩

/-- Poll-cycle samples for the C2 scenario: only the subscriber has a sample,
at latitude 1/10 and longitude 0 (6 nm from the origin); the member b
produced no sample this cycle. -/
def respsC2 : RespMap := fun k =>
  if k = "a" then some ⟨1/10, 0, 90, 5, 92, 5⟩
  else none

/-- C2 (against the claim): the member b has no sample this cycle
(respsC2 b is none), yet it appears in the others mapping of the group
payload - under its friendly name, at the Go zero-value position (0, 0) with
quantized course 0 - because the code reads the missing sample as the zero
value and the subscriber is within 15 nm of the origin.  The claim that a
member with no sample never appears in the payload is therefore false of
this code. -/
theorem c2_missing_sample_member_appears_in_payload :
    respsC2 "b" = none ∧
      (createBoatGroupRespMsg cosTaylor sqrtApprox piRat ctxC2 respsC2).otherBoats
        "Bravo" = some (0, 0, 0) := by
  refine ⟨by simp [respsC2], ?_⟩
  have hma : mapGet respsC2 "a" = ⟨1/10, 0, 90, 5, 92, 5⟩ := by
    simp [mapGet, respsC2]
  have hmb : mapGet respsC2 "b" = zeroBoatData := by
    simp [mapGet, respsC2]
  have habs : (60:ℚ) * |(1:ℚ)/10 - 0| = 6 := by
    rw [sub_zero, abs_of_nonneg (by norm_num)]
    norm_num
  have hdist : roughCloseDistance cosTaylor sqrtApprox piRat (1/10) 0 0 0 = 6 := by
    rw [roughCloseDistance_same_lon cosTaylor sqrtApprox piRat (1/10) 0 0
      (by rw [habs]; norm_num)]
    rw [habs]
    norm_num [sqrtApprox_36]
  unfold createBoatGroupRespMsg
  simp only [ctxC2, Option.getD, buildOthers, hma, hmb, zeroBoatData]
  rw [if_neg (by decide : ¬ ("a" = "b"))]
  simp only [hdist]
  rw [if_neg (by norm_num : ¬ (15:ℚ) < 6)]
  simp [buildOthers, setOther, roundCourse_0_6]

/-- Connection context for the C7 scenario: subscriber key a with group
members b (Bravo) and c (Charlie). -/
def ctxC7 : ConnCtx := ⟨"a", some [⟨"b", "Bravo"⟩, ⟨"c", "Charlie"⟩]⟩

/-- Poll-cycle samples for the C7 scenario: the subscriber at (0, 7); Bravo
10 nm north at latitude 1/6, course 14; Charlie 20 nm north at latitude 1/3,
course 100. -/
def respsC7 : RespMap := fun k =>
  if k = "a" then some ⟨0, 7, 90, 5, 92, 5⟩
  else if k = "b" then some ⟨1/6, 7, 14, 5, 15, 5⟩
  else if k = "c" then some ⟨1/3, 7, 100, 5, 101, 5⟩
  else none

/-- Distance from the C7 subscriber to Bravo is exactly 10 nm. -/
lemma distC7_b : roughCloseDistance cosTaylor sqrtApprox piRat 0 7 (1/6) 7 = 10 := by
  have habs : (60:ℚ) * |(0:ℚ) - 1/6| = 10 := by
    rw [show (0:ℚ) - 1/6 = -(1/6) by ring, abs_neg, abs_of_nonneg (by norm_num)]
    norm_num
  rw [roughCloseDistance_same_lon cosTaylor sqrtApprox piRat 0 7 (1/6)
    (by rw [habs]; norm_num)]
  rw [habs]
  norm_num [sqrtApprox_100]

/-- Distance from the C7 subscriber to Charlie is exactly 20 nm. -/
lemma distC7_c : roughCloseDistance cosTaylor sqrtApprox piRat 0 7 (1/3) 7 = 20 := by
  have habs : (60:ℚ) * |(0:ℚ) - 1/3| = 20 := by
    rw [show (0:ℚ) - 1/3 = -(1/3) by ring, abs_neg, abs_of_nonneg (by norm_num)]
    norm_num
  rw [roughCloseDistance_same_lon cosTaylor sqrtApprox piRat 0 7 (1/3)
    (by rw [habs]; norm_num)]
  rw [habs]
  norm_num [sqrtApprox_400]

/-- Evaluation of the C7 group payload: Bravo appears with course 22.5 and
Charlie is absent. -/
lemma c7_payload_eval :
    (createBoatGroupRespMsg cosTaylor sqrtApprox piRat ctxC7 respsC7).otherBoats
        "Bravo" = some (1/6, 7, 45/2) ∧
      (createBoatGroupRespMsg cosTaylor sqrtApprox piRat ctxC7 respsC7).otherBoats
        "Charlie" = none := by
  have hma : mapGet respsC7 "a" = ⟨0, 7, 90, 5, 92, 5⟩ := by
    simp [mapGet, respsC7]
  have hmb : mapGet respsC7 "b" = ⟨1/6, 7, 14, 5, 15, 5⟩ := by
    simp [mapGet, respsC7]
  have hmc : mapGet respsC7 "c" = ⟨1/3, 7, 100, 5, 101, 5⟩ := by
    simp [mapGet, respsC7]
  constructor <;>
  · unfold createBoatGroupRespMsg
    simp only [ctxC7, Option.getD, buildOthers, hma, hmb, hmc]
    rw [if_neg (by decide : ¬ ("a" = "b"))]
    simp only [distC7_b, distC7_c]
    rw [if_neg (by norm_num : ¬ (15:ℚ) < 10)]
    rw [if_neg (by decide : ¬ ("a" = "c"))]
    rw [if_pos (by norm_num : (15:ℚ) < 20)]
    simp [setOther, emptyOthers, roundCourse_14_10]

/-- C7 counterexample (against the claim): in the C7 scenario the member
Bravo is computed at exactly 10 nm, and its course 14 is emitted as 22.5 -
the nearest multiple of 22.5 - not as a nearest-11.25-degree rounding: the
emitted value is more than half an 11.25-degree step away from the true
course, and differs from 11.25, the nearest multiple of 11.25 to 14.  The
claim that a member at 10 nm has its course rounded to the nearest 11.25
degrees is therefore false of this code. -/
theorem c7_course_at_10nm_not_nearest_11_25 :
    (createBoatGroupRespMsg cosTaylor sqrtApprox piRat ctxC7 respsC7).otherBoats
        "Bravo" = some (1/6, 7, 45/2) ∧
      ¬ |(45/2 : ℚ) - 14| ≤ 45/8 ∧
      (roundHalfAway (14 / (45/4)) : ℚ) * (45/4) = 45/4 ∧ (45/2 : ℚ) ≠ 45/4 :=
  ⟨c7_payload_eval.1,
    by
      rw [show (45/2 : ℚ) - 14 = 17/2 by norm_num,
        abs_of_nonneg (by norm_num : (0:ℚ) ≤ 17/2)]
      norm_num,
    by norm_num [roundHalfAway], by norm_num⟩

/-- C7 as amended: a roster member computed at 10 nm has its course rounded
to the nearest multiple of 22.5 degrees (the tier for distances of at least
6 nm), and a member is excluded from the others mapping only when its
distance exceeds 15 nm - so the member at 20 nm is absent. -/
theorem c7_amended_course_at_10nm_nearest_22_5 :
    (createBoatGroupRespMsg cosTaylor sqrtApprox piRat ctxC7 respsC7).otherBoats
        "Bravo" = some (1/6, 7, 45/2) ∧
      (∃ k : ℤ, (45/2 : ℚ) = k * (45/2)) ∧ |(45/2 : ℚ) - 14| ≤ 45/4 ∧
      (createBoatGroupRespMsg cosTaylor sqrtApprox piRat ctxC7 respsC7).otherBoats
        "Charlie" = none :=
  ⟨c7_payload_eval.1, ⟨1, by norm_num⟩,
    by
      rw [show (45/2 : ℚ) - 14 = 17/2 by norm_num,
        abs_of_nonneg (by norm_num : (0:ℚ) ≤ 17/2)]
      norm_num,
    c7_payload_eval.2⟩

/-- The concrete square-root stand-in at 4500 (about 67.082 nm). -/
lemma sqrtApprox_4500 : sqrtApprox 4500 = 67082039/10^6 := by
  have h1 : (⌊((4500:ℚ) * 10^12)⌋ : ℤ) = 4500000000000000 := by norm_num
  have h3 : Int.toNat 4500000000000000 = 4500000000000000 := rfl
  have h2 : isqrt 4500000000000000 = 67082039 := by decide
  rw [sqrtApprox, h1, h3, h2]
  norm_num

/-- C9 counterexample (against the claim): for the points (-0.5, 0) and
(0.5, 0.5), the north-south component 60 times the latitude delta is exactly
60 - so the claim's condition that one axis alone implies a separation of at
least 60 nm holds - yet the code's strict comparison does not short-circuit:
it falls through to the flat formula and returns about 67.08, not the clamped
value 60.  The claim with its non-strict threshold is therefore false of this
code. -/
theorem c9_axis_exactly_60_not_clamped :
    (60:ℚ) * |(-1/2 : ℚ) - (1/2)| = 60 ∧
      roughCloseDistance cosTaylor sqrtApprox piRat (-1/2) 0 (1/2) (1/2) =
        67082039/10^6 ∧
      roughCloseDistance cosTaylor sqrtApprox piRat (-1/2) 0 (1/2) (1/2) ≠ 60 := by
  have habs : (60:ℚ) * |(-1/2 : ℚ) - (1/2)| = 60 := by
    rw [show (-1/2 : ℚ) - (1/2) = -1 by norm_num, abs_neg, abs_one]
    norm_num
  have heval : roughCloseDistance cosTaylor sqrtApprox piRat (-1/2) 0 (1/2) (1/2) =
      67082039/10^6 := by
    simp only [roughCloseDistance]
    rw [show ((-1/2 : ℚ) + (1/2)) / 2 = 0 by norm_num]
    rw [if_neg (by norm_num : ¬ (89:ℚ) < 0), if_neg (by norm_num : ¬ (0:ℚ) < -89)]
    rw [habs, if_neg (by norm_num : ¬ (60:ℚ) < 60)]
    rw [show (0:ℚ) * piRat / 180 = 0 by ring]
    rw [show cosTaylor 0 = 1 by norm_num [cosTaylor]]
    rw [show diffLon 0 (1/2) = 1/2 by
      unfold diffLon
      rw [show (0:ℚ) - 1/2 = -(1/2) by ring, abs_neg,
        abs_of_nonneg (by norm_num : (0:ℚ) ≤ 1/2)]
      norm_num]
    rw [show (60:ℚ) * 1 * (1/2) = 30 by norm_num]
    rw [if_neg (by norm_num : ¬ (60:ℚ) < 30)]
    rw [show (30:ℚ) * 30 + 60 * 60 = 4500 by norm_num]
    exact sqrtApprox_4500
  exact ⟨habs, heval, by rw [heval]; norm_num⟩

/-- C9 as amended: the short circuit fires on the strict comparisons the code
performs - when one axis component strictly exceeds 60 the result is the
clamped value 60 - and the spec's example families of far pairs do report 60:
any two points on the equator more than 90 degrees of longitude apart, and
any antipodal pair (opposite latitudes, longitudes 180 degrees apart), always
under the sole assumption that the cosine interpretation sends 0 to 1 where
it is used at all. -/
theorem c9_amended_strict_short_circuit (cosine sqrtF : ℚ → ℚ) (pi : ℚ)
    (la lo lb lo2 : ℚ) :
    (60 < 60 * |la - lb| →
      roughCloseDistance cosine sqrtF pi la lo lb lo2 = 60) ∧
    (60 * |la - lb| ≤ 60 →
      60 < 60 * cosine ((if 89 < (la + lb) / 2 then (89:ℚ)
          else if (la + lb) / 2 < -89 then -89 else (la + lb) / 2) * pi / 180) *
        diffLon lo lo2 →
      roughCloseDistance cosine sqrtF pi la lo lb lo2 = 60) ∧
    (cosine 0 = 1 → la = 0 → lb = 0 → 90 < diffLon lo lo2 →
      roughCloseDistance cosine sqrtF pi la lo lb lo2 = 60) ∧
    (cosine 0 = 1 → lb = -la → diffLon lo lo2 = 180 →
      roughCloseDistance cosine sqrtF pi la lo lb lo2 = 60) := by
  refine ⟨fun hy => ?_, fun hy hx => ?_, fun hc ha hb hlon => ?_, fun hc hb hlon => ?_⟩
  · simp only [roughCloseDistance]
    rw [if_pos hy]
  · simp only [roughCloseDistance]
    rw [if_neg (not_lt.mpr hy), if_pos hx]
  · subst ha
    subst hb
    simp only [roughCloseDistance]
    rw [show ((0:ℚ) + 0) / 2 = 0 by norm_num]
    rw [if_neg (by norm_num : ¬ (89:ℚ) < 0), if_neg (by norm_num : ¬ (0:ℚ) < -89)]
    rw [show (60:ℚ) * |(0:ℚ) - 0| = 0 by simp]
    rw [if_neg (by norm_num : ¬ (60:ℚ) < 0)]
    rw [show (0:ℚ) * pi / 180 = 0 by ring, hc]
    rw [if_pos (by linarith : (60:ℚ) < 60 * 1 * diffLon lo lo2)]
  · subst hb
    simp only [roughCloseDistance]
    rw [show (la + -la) / 2 = (0:ℚ) by ring]
    rw [if_neg (by norm_num : ¬ (89:ℚ) < 0), if_neg (by norm_num : ¬ (0:ℚ) < -89)]
    by_cases hy : (60:ℚ) < 60 * |la - -la|
    · rw [if_pos hy]
    · rw [if_neg hy]
      rw [show (0:ℚ) * pi / 180 = 0 by ring, hc, hlon]
      rw [if_pos (by norm_num : (60:ℚ) < 60 * 1 * 180)]

/-- Witness for the amended C9: with the concrete interpretations, the pair
of latitudes 2 and 0 has a north-south component of 120 and the distance is
the clamped 60. -/
theorem c9_amended_strict_short_circuit_witness :
    (60:ℚ) < 60 * |(2:ℚ) - 0| ∧
      roughCloseDistance cosTaylor sqrtApprox piRat 2 5 0 6 = 60 := by
  have h : (60:ℚ) < 60 * |(2:ℚ) - 0| := by
    rw [sub_zero, abs_of_nonneg (by norm_num : (0:ℚ) ≤ 2)]
    norm_num
  exact ⟨h, (c9_amended_strict_short_circuit cosTaylor sqrtApprox piRat 2 5 0 6).1 h⟩

/-- C3 counterexample (against the claim): a backend response line with only
two comma-separated fields, received by the live-data poll, makes the line
dispatch index s[2] out of range: the embedded fetch yields the panic outcome
rather than completing the cycle.  In the program this panic occurs on the
poll goroutine and is process-fatal, so the claim that no backend line can
abort the process is false of this code. -/
theorem c3_short_line_panics_poll :
    getBoatDataLiveResps (fun _ => some 0) false true 1 [Except.ok "x,y"] = none := by
  rfl

/-- A live-data response line whose field list has at least 3 fields - and at
least 9 when the status field is ok - is processed without a panic, whatever
the float-parsing interpretation does. -/
lemma processLiveLine_ne_none (pf : String → Option ℚ) (line : String)
    (h3 : 3 ≤ (splitComma line).length)
    (h9 : (splitComma line).get? 2 = some "ok" → 9 ≤ (splitComma line).length) :
    processLiveLine pf line ≠ none := by
  simp only [processLiveLine]
  have hget : ∀ i : ℕ, i < (splitComma line).length → ∃ x, (splitComma line).get? i = some x := by
    intro i hi
    cases hx : (splitComma line).get? i with
    | none => exact absurd (List.get?_eq_none.mp hx) (not_le.mpr hi)
    | some x => exact ⟨x, rfl⟩
  obtain ⟨c2, hc2⟩ := hget 2 (by omega)
  simp only [hc2]
  by_cases hok : c2 = "ok"
  · subst hok
    rw [if_pos rfl]
    have h9' := h9 hc2
    obtain ⟨f3, hf3⟩ := hget 3 (by omega)
    obtain ⟨f4, hf4⟩ := hget 4 (by omega)
    obtain ⟨f5, hf5⟩ := hget 5 (by omega)
    obtain ⟨f6, hf6⟩ := hget 6 (by omega)
    obtain ⟨f7, hf7⟩ := hget 7 (by omega)
    obtain ⟨f8, hf8⟩ := hget 8 (by omega)
    simp only [hf3]
    cases pf f3 with
    | none => simp
    | some lat =>
      simp only [hf4]
      cases pf f4 with
      | none => simp
      | some lon =>
        simp only [hf5]
        cases pf f5 with
        | none => simp
        | some ctw =>
          simp only [hf6]
          cases pf f6 with
          | none => simp
          | some stw =>
            simp only [hf7]
            cases pf f7 with
            | none => simp
            | some cog =>
              simp only [hf8]
              cases pf f8 with
              | none => simp
              | some sog => simp
  · rw [if_neg hok]
    simp

/-- The live read loop never produces the panic outcome when every
successfully read line either is the literal error line or satisfies the
field-count conditions of processLiveLine_ne_none. -/
lemma readLiveLoop_ne_none (pf : String → Option ℚ)
    (lines : List (Except Unit String)) :
    ∀ (n : ℕ) (resps : RespMap),
    (∀ raw, Except.ok raw ∈ lines → trimNL raw = "error" ∨
      (3 ≤ (splitComma (trimNL raw)).length ∧
        ((splitComma (trimNL raw)).get? 2 = some "ok" →
          9 ≤ (splitComma (trimNL raw)).length))) →
    readLiveLoop pf n lines resps ≠ none := by
  induction lines with
  | nil =>
    intro n resps _
    cases n <;> simp [readLiveLoop]
  | cons hd tl ih =>
    intro n resps h
    cases n with
    | zero => simp [readLiveLoop]
    | succ m =>
      cases hd with
      | error e => simp [readLiveLoop]
      | ok raw =>
        have hraw := h raw (by simp)
        rw [readLiveLoop]
        by_cases he : trimNL raw = "error"
        · rw [if_pos he]
          simp
        · rw [if_neg he]
          have hfields : 3 ≤ (splitComma (trimNL raw)).length ∧
              ((splitComma (trimNL raw)).get? 2 = some "ok" →
                9 ≤ (splitComma (trimNL raw)).length) := by
            rcases hraw with hr | hr
            · exact absurd hr he
            · exact hr
          have htail : ∀ raw2, Except.ok raw2 ∈ tl → trimNL raw2 = "error" ∨
              (3 ≤ (splitComma (trimNL raw2)).length ∧
                ((splitComma (trimNL raw2)).get? 2 = some "ok" →
                  9 ≤ (splitComma (trimNL raw2)).length)) := by
            intro raw2 hm
            exact h raw2 (by simp [hm])
          cases hp : processLiveLine pf (trimNL raw) with
          | none => exact absurd hp (processLiveLine_ne_none pf (trimNL raw) hfields.1 hfields.2)
          | some r =>
            cases r with
            | none => exact ih m resps htail
            | some km => exact ih m (setResp resps km.1 km.2) htail

/-- The group read loop in the roster phase never produces the panic outcome
when every successfully read line is blank or has at least 2 fields. -/
lemma readGroupLoop_roster_ne_none (lines : List (Except Unit String)) :
    ∀ (acc : List BoatInfo),
    (∀ raw, Except.ok raw ∈ lines → trimNL raw = "" ∨
      2 ≤ (splitComma (trimNL raw)).length) →
    readGroupLoop lines false acc ≠ none := by
  induction lines with
  | nil => intro acc _; simp [readGroupLoop]
  | cons hd tl ih =>
    intro acc h
    cases hd with
    | error e => simp [readGroupLoop]
    | ok raw =>
      have hraw := h raw (by simp)
      rw [readGroupLoop]
      simp only [Bool.false_eq_true, if_false]
      by_cases hb : trimNL raw = ""
      · rw [if_pos hb]
        simp
      · rw [if_neg hb]
        have hlen : 2 ≤ (splitComma (trimNL raw)).length := by
          rcases hraw with hr | hr
          · exact absurd hr hb
          · exact hr
        obtain ⟨fn, hfn⟩ : ∃ x, (splitComma (trimNL raw)).get? 1 = some x := by
          cases hx : (splitComma (trimNL raw)).get? 1 with
          | none => exact absurd (List.get?_eq_none.mp hx) (by omega)
          | some x => exact ⟨x, rfl⟩
        simp only [hfn]
        have htail : ∀ raw2, Except.ok raw2 ∈ tl → trimNL raw2 = "" ∨
            2 ≤ (splitComma (trimNL raw2)).length := by
          intro raw2 hm
          exact h raw2 (by simp [hm])
        by_cases hsent : fn = "!"
        · rw [if_pos hsent]
          exact ih acc htail
        · rw [if_neg hsent]
          exact ih _ htail

/-- C3 as amended: the live-data poll and the group-membership fetch never
abort the process on transport errors, error lines, unexpected status codes
or unparseable floats - provided every received line carries the minimum
field counts the code indexes (at least 3 fields for a live or header line,
at least 9 for an ok live line, at least 2 for a non-blank roster line).  A
line below those counts makes the dispatch index out of range; on the poll
goroutine (c3_short_line_panics_poll) that panic is process-fatal, while in
the group fetch it is confined to the handler by the HTTP server's recover. -/
theorem c3_amended_no_panic_with_min_fields :
    (∀ (pf : String → Option ℚ) (keysEmpty dialOk : Bool) (n : ℕ)
        (lines : List (Except Unit String)),
      (∀ raw, Except.ok raw ∈ lines → trimNL raw = "error" ∨
        (3 ≤ (splitComma (trimNL raw)).length ∧
          ((splitComma (trimNL raw)).get? 2 = some "ok" →
            9 ≤ (splitComma (trimNL raw)).length))) →
      getBoatDataLiveResps pf keysEmpty dialOk n lines ≠ none) ∧
    (∀ (dialOk : Bool) (lines : List (Except Unit String)),
      (∀ raw, lines.head? = some (Except.ok raw) → trimNL raw = "error" ∨
        3 ≤ (splitComma (trimNL raw)).length) →
      (∀ raw, Except.ok raw ∈ lines.tail → trimNL raw = "" ∨
        2 ≤ (splitComma (trimNL raw)).length) →
      getBoatsInGroup dialOk lines ≠ none) := by
  constructor
  · intro pf keysEmpty dialOk n lines h
    cases keysEmpty with
    | true => simp [getBoatDataLiveResps]
    | false =>
      cases dialOk with
      | true =>
        have hred : getBoatDataLiveResps pf false true n lines =
            readLiveLoop pf n lines emptyResps := rfl
        rw [hred]
        exact readLiveLoop_ne_none pf lines n emptyResps h
      | false => simp [getBoatDataLiveResps]
  · intro dialOk lines h1 h2
    cases dialOk with
    | false => simp [getBoatsInGroup]
    | true =>
      have hred : getBoatsInGroup true lines = readGroupLoop lines true [] := rfl
      rw [hred]
      cases lines with
      | nil => simp [readGroupLoop]
      | cons hd tl =>
        cases hd with
        | error e => simp [readGroupLoop]
        | ok raw =>
          have hraw := h1 raw (by simp)
          rw [readGroupLoop]
          simp only [if_true]
          by_cases he : trimNL raw = "error"
          · rw [if_pos he]
            simp
          · rw [if_neg he]
            have hlen : 3 ≤ (splitComma (trimNL raw)).length := by
              rcases hraw with hr | hr
              · exact absurd hr he
              · exact hr
            obtain ⟨c2, hc2⟩ : ∃ x, (splitComma (trimNL raw)).get? 2 = some x := by
              cases hx : (splitComma (trimNL raw)).get? 2 with
              | none => exact absurd (List.get?_eq_none.mp hx) (by omega)
              | some x => exact ⟨x, rfl⟩
            simp only [hc2]
            by_cases hok : c2 = "ok"
            · rw [if_pos hok]
              exact readGroupLoop_roster_ne_none tl [] (by simpa using h2)
            · rw [if_neg hok]
              simp

/-- Witness for the amended C3: a one-line ok poll exchange and a two-line
group exchange, both with the minimum field counts, complete without panic. -/
theorem c3_amended_no_panic_with_min_fields_witness :
    getBoatDataLiveResps (fun _ => some 1) false true 1
        [Except.ok "bd,k,ok,1,2,3,4,5,6"] ≠ none ∧
      getBoatsInGroup true [Except.ok "bg,k,ok", Except.ok ""] ≠ none := by
  constructor
  · exact c3_amended_no_panic_with_min_fields.1 (fun _ => some 1) false true 1
      [Except.ok "bd,k,ok,1,2,3,4,5,6"]
      (by
        intro raw hm
        simp only [List.mem_singleton, Except.ok.injEq] at hm
        subst hm
        right
        constructor
        · decide
        · intro _
          decide)
  · exact c3_amended_no_panic_with_min_fields.2 true
      [Except.ok "bg,k,ok", Except.ok ""]
      (by
        intro raw hm
        simp only [List.head?_cons, Option.some_inj, Except.ok.injEq] at hm
        subst hm
        right
        decide)
      (by
        intro raw hm
        simp only [List.tail_cons, List.mem_singleton, Except.ok.injEq] at hm
        subst hm
        left
        decide)

/-- A read result that aborts the remaining reads of a poll cycle: a read
error (including a deadline expiry) or a line that trims to the literal
error line. -/
def breaksLiveRead : Except Unit String → Prop
  | Except.error _ => True
  | Except.ok raw => trimNL raw = "error"

/-- The sample mapping accumulated by processing a list of successfully read
lines in order (the panic outcome, excluded by the hypotheses under which
this is used, leaves the accumulator unchanged). -/
def liveSamplesOf (pf : String → Option ℚ) : List String → RespMap → RespMap
  | [], resps => resps
  | raw :: rest, resps =>
    match processLiveLine pf (trimNL raw) with
    | none => liveSamplesOf pf rest resps
    | some none => liveSamplesOf pf rest resps
    | some (some (k, m)) => liveSamplesOf pf rest (setResp resps k m)

/-- The read loop run against a stream consisting of a clean prefix followed
by an aborting read result stops at the aborting element and returns exactly
the samples accumulated over the prefix. -/
lemma readLiveLoop_break (pf : String → Option ℚ) (pre : List String)
    (fail : Except Unit String) (post : List (Except Unit String)) :
    ∀ (n : ℕ) (resps : RespMap),
    pre.length < n →
    (∀ raw ∈ pre, trimNL raw ≠ "error" ∧ processLiveLine pf (trimNL raw) ≠ none) →
    breaksLiveRead fail →
    readLiveLoop pf n (pre.map Except.ok ++ fail :: post) resps =
      some (liveSamplesOf pf pre resps) := by
  induction pre with
  | nil =>
    intro n resps hn _ hfail
    cases n with
    | zero => omega
    | succ m =>
      cases fail with
      | error e => simp [readLiveLoop, liveSamplesOf]
      | ok raw =>
        have he : trimNL raw = "error" := hfail
        simp only [List.map_nil, List.nil_append, readLiveLoop, liveSamplesOf]
        rw [if_pos he]
  | cons hd tlp ih =>
    intro n resps hn hpre hfail
    cases n with
    | zero => omega
    | succ m =>
      have hhd := hpre hd (by simp)
      simp only [List.map_cons, List.cons_append, readLiveLoop]
      rw [if_neg hhd.1]
      cases hp : processLiveLine pf (trimNL hd) with
      | none => exact absurd hp hhd.2
      | some r =>
        have htl : ∀ raw ∈ tlp, trimNL raw ≠ "error" ∧
            processLiveLine pf (trimNL raw) ≠ none := by
          intro raw hm
          exact hpre raw (by simp [hm])
        cases r with
        | none =>
          rw [liveSamplesOf, hp]
          exact ih m resps (by simp at hn ⊢; omega) htl hfail
        | some km =>
          rw [liveSamplesOf, hp]
          exact ih m (setResp resps km.1 km.2) (by simp at hn ⊢; omega) htl hfail

/-- C5: a connect failure (or a failure to arm the deadline) makes the fetch
return the empty sample mapping, and a read error, deadline expiry or literal
error line occurring after any clean prefix of the cycle's reads aborts the
remaining reads and makes the fetch return exactly the samples parsed from
that prefix - in both cases a returned (partial, possibly empty) mapping,
never the fatal panic outcome. -/
theorem c5_failure_returns_partial_samples :
    (∀ (pf : String → Option ℚ) (n : ℕ) (lines : List (Except Unit String)),
      getBoatDataLiveResps pf false false n lines = some emptyResps) ∧
    (∀ (pf : String → Option ℚ) (pre : List String) (fail : Except Unit String)
        (post : List (Except Unit String)) (n : ℕ),
      pre.length < n →
      (∀ raw ∈ pre, trimNL raw ≠ "error" ∧ processLiveLine pf (trimNL raw) ≠ none) →
      breaksLiveRead fail →
      getBoatDataLiveResps pf false true n (pre.map Except.ok ++ fail :: post) =
        some (liveSamplesOf pf pre emptyResps)) := by
  constructor
  · intro pf n lines
    rfl
  · intro pf pre fail post n hn hpre hfail
    have hred : getBoatDataLiveResps pf false true n (pre.map Except.ok ++ fail :: post) =
        readLiveLoop pf n (pre.map Except.ok ++ fail :: post) emptyResps := rfl
    rw [hred]
    exact readLiveLoop_break pf pre fail post n emptyResps hn hpre hfail

/-- Witness for C5: a cycle that parses one ok line and then hits a read
error returns exactly the one-sample mapping of the prefix. -/
theorem c5_failure_returns_partial_samples_witness :
    getBoatDataLiveResps (fun _ => some 1) false true 3
        [Except.ok "bd,k,ok,1,2,3,4,5,6", Except.error (), Except.ok "junk"] =
      some (liveSamplesOf (fun _ => some 1) ["bd,k,ok,1,2,3,4,5,6"] emptyResps) :=
  c5_failure_returns_partial_samples.2 (fun _ => some 1)
    ["bd,k,ok,1,2,3,4,5,6"] (Except.error ()) [Except.ok "junk"] 3
    (by norm_num)
    (by
      intro raw hm
      simp only [List.mem_singleton] at hm
      subst hm
      exact ⟨by decide, by decide⟩)
    trivial

/-- A uint64 increment below the wrap bound is an exact increment. -/
lemma inc64_eq (c : ℕ) (h : c + 1 < 2^64) : inc64 c = c + 1 := by
  unfold inc64
  omega

/-- A uint64 decrement of a positive count below the wrap bound is an exact
decrement. -/
lemma dec64_eq (c : ℕ) (h1 : 1 ≤ c) (h2 : c < 2^64) : dec64 c = c - 1 := by
  unfold dec64
  omega

/-- One trackBoat call shifts a tracked map that agrees with a count function
to one that agrees with the count function incremented at the tracked key. -/
lemma trackBoat_agrees (m : TrackedMap) (f : String → ℕ) (r : String)
    (hm : ∀ q, m q = if f q = 0 then none else some (f q))
    (hb : f r + 1 < 2^64) :
    ∀ q, trackBoat m r q =
      if f q + (if q = r then 1 else 0) = 0 then none
      else some (f q + (if q = r then 1 else 0)) := by
  intro q
  cases hmr : m r with
  | none =>
    have hfr : f r = 0 := by
      have := hm r
      rw [hmr] at this
      by_contra hne
      rw [if_neg hne] at this
      exact Option.noConfusion this
    simp only [trackBoat, hmr]
    by_cases hq : q = r
    · subst hq
      simp [hfr]
    · simp only [if_neg hq]
      rw [hm q, add_zero]
  | some c =>
    have hfr : f r ≠ 0 ∧ c = f r := by
      have := hm r
      rw [hmr] at this
      by_cases hz : f r = 0
      · rw [if_pos hz] at this
        exact Option.noConfusion this
      · rw [if_neg hz] at this
        exact ⟨hz, Option.some_inj.mp this⟩
    simp only [trackBoat, hmr]
    by_cases hq : q = r
    · subst hq
      rw [if_pos rfl, if_pos rfl, if_neg (by omega)]
      rw [hfr.2, inc64_eq (f q) hb]
    · simp only [if_neg hq]
      rw [hm q, add_zero]

/-- Folding trackBoat over a reference list shifts agreement with a count
function to agreement with that function plus the list's occurrence counts,
provided no count reaches the uint64 wrap bound. -/
lemma trackBoats_fold_agrees (refs : List String) :
    ∀ (m : TrackedMap) (f : String → ℕ),
    (∀ q, m q = if f q = 0 then none else some (f q)) →
    (∀ q, f q + refs.count q < 2^64) →
    ∀ q, (refs.foldl trackBoat m) q =
      if f q + refs.count q = 0 then none else some (f q + refs.count q) := by
  induction refs with
  | nil =>
    intro m f hm _ q
    simpa using hm q
  | cons r rest ih =>
    intro m f hm hb q
    have hbr : f r + 1 < 2^64 := by
      have := hb r
      have hcnt : (r :: rest).count r = rest.count r + 1 := by
        simp [List.count_cons]
      omega
    have hm2 := trackBoat_agrees m f r hm hbr
    have hb2 : ∀ q2, (f q2 + (if q2 = r then 1 else 0)) + rest.count q2 < 2^64 := by
      intro q2
      have := hb q2
      have hcnt : (r :: rest).count q2 = rest.count q2 + (if q2 = r then 1 else 0) := by
        by_cases hq2 : q2 = r
        · subst hq2
          simp [List.count_cons]
        · simp [List.count_cons, hq2]
      omega
    have := ih (trackBoat m r) (fun q2 => f q2 + (if q2 = r then 1 else 0)) hm2 hb2 q
    rw [List.foldl_cons]
    rw [this]
    have hcnt : (r :: rest).count q = rest.count q + (if q = r then 1 else 0) := by
      by_cases hq : q = r
      · subst hq
        simp [List.count_cons]
      · simp [List.count_cons, hq]
    have harith : f q + (if q = r then 1 else 0) + rest.count q = f q + (r :: rest).count q := by
      omega
    rw [harith]

/-- One untrackBoat call shifts a tracked map that agrees with a count
function to one that agrees with the count function decremented at the
untracked key, provided that key's count is positive and below the wrap
bound. -/
lemma untrackBoat_agrees (m : TrackedMap) (f : String → ℕ) (r : String)
    (hm : ∀ q, m q = if f q = 0 then none else some (f q))
    (hps : 1 ≤ f r) (hb : f r < 2^64) :
    ∀ q, untrackBoat m r q =
      if f q - (if q = r then 1 else 0) = 0 then none
      else some (f q - (if q = r then 1 else 0)) := by
  intro q
  have hmr : m r = some (f r) := by
    rw [hm r, if_neg (by omega)]
  simp only [untrackBoat, hmr]
  rw [dec64_eq (f r) hps hb]
  by_cases hz : f r - 1 = 0
  · rw [if_pos hz]
    by_cases hq : q = r
    · subst hq
      simp [hz]
    · simp only [if_neg hq]
      rw [hm q, Nat.sub_zero]
  · rw [if_neg hz]
    by_cases hq : q = r
    · subst hq
      rw [if_pos rfl, if_pos rfl, if_neg (by omega)]
    · simp only [if_neg hq]
      rw [hm q, Nat.sub_zero]

/-- Folding untrackBoat over a reference list shifts agreement with a count
function to agreement with that function minus the list's occurrence counts,
provided each key is referenced at least as often as the list counts it and
no count reaches the wrap bound. -/
lemma untrackBoats_fold_agrees (refs : List String) :
    ∀ (m : TrackedMap) (f : String → ℕ),
    (∀ q, m q = if f q = 0 then none else some (f q)) →
    (∀ q, refs.count q ≤ f q) →
    (∀ q, f q < 2^64) →
    ∀ q, (refs.foldl untrackBoat m) q =
      if f q - refs.count q = 0 then none else some (f q - refs.count q) := by
  induction refs with
  | nil =>
    intro m f hm _ _ q
    simpa using hm q
  | cons r rest ih =>
    intro m f hm hle hb q
    have hcnt : ∀ q2, (r :: rest).count q2 = rest.count q2 + (if q2 = r then 1 else 0) := by
      intro q2
      by_cases hq2 : q2 = r
      · subst hq2
        simp [List.count_cons]
      · simp [List.count_cons, hq2]
    have hps : 1 ≤ f r := by
      have h1 := hle r
      have h2 : (r :: rest).count r = rest.count r + 1 := by
        simp [List.count_cons]
      omega
    have hm2 := untrackBoat_agrees m f r hm hps (hb r)
    have hle2 : ∀ q2, rest.count q2 ≤ f q2 - (if q2 = r then 1 else 0) := by
      intro q2
      have := hle q2
      have := hcnt q2
      omega
    have hb2 : ∀ q2, f q2 - (if q2 = r then 1 else 0) < 2^64 := by
      intro q2
      have := hb q2
      omega
    have := ih (untrackBoat m r) (fun q2 => f q2 - (if q2 = r then 1 else 0)) hm2 hle2 hb2 q
    rw [List.foldl_cons]
    rw [this]
    have harith : f q - (if q = r then 1 else 0) - rest.count q = f q - (r :: rest).count q := by
      have := hcnt q
      omega
    rw [harith]

/-- The reference count over a ledger with one more subscription. -/
lemma refCnt_cons (q : String) (conn : ℕ) (refs : List String) (live : LiveSubs) :
    refCnt q ((conn, refs) :: live) = refs.count q + refCnt q live := by
  simp [refCnt]

/-- Removing the found subscription from the ledger lowers each reference
count by exactly the removed subscription's occurrence count. -/
lemma refCnt_eraseP (conn : ℕ) : ∀ (live : LiveSubs) (p : ℕ × List String),
    live.find? (fun x => x.1 = conn) = some p →
    ∀ q, refCnt q (live.eraseP (fun x => x.1 = conn)) + p.2.count q = refCnt q live := by
  intro live
  induction live with
  | nil =>
    intro p hf
    exact Option.noConfusion hf
  | cons hd tl ih =>
    intro p hf q
    by_cases hc : hd.1 = conn
    · rw [List.find?_cons_of_pos _ (by simp [hc])] at hf
      have hp : hd = p := Option.some_inj.mp hf
      subst hp
      rw [List.eraseP_cons_of_pos (by simp [hc])]
      simp only [refCnt, List.map_cons, List.sum_cons]
      exact Nat.add_comm _ _
    · rw [List.find?_cons_of_neg _ (by simp [hc])] at hf
      rw [List.eraseP_cons_of_neg (by simp [hc])]
      have := ih p hf q
      simp only [refCnt, List.map_cons, List.sum_cons] at this ⊢
      omega

/-- Running subscription-lifecycle events preserves the agreement between the
tracked-boats map and the ledger's reference counts, as long as no key's
count can reach the uint64 wrap bound. -/
lemma runSubOps_agrees : ∀ (ops : List SubOp) (live : LiveSubs) (m : TrackedMap),
    TrackedAgrees live m →
    (∀ k, refCnt k live + totalSubRefs ops < 2^64) →
    TrackedAgrees (runSubOps (live, m) ops).1 (runSubOps (live, m) ops).2 := by
  intro ops
  induction ops with
  | nil =>
    intro live m hm _
    simpa [runSubOps] using hm
  | cons op rest ih =>
    intro live m hm hb
    rw [runSubOps]
    cases op with
    | sub conn refs =>
      have ht : totalSubRefs (SubOp.sub conn refs :: rest) =
          refs.length + totalSubRefs rest := rfl
      have hb2 : ∀ q, refCnt q live + refs.count q < 2^64 := by
        intro q
        have h1 := hb q
        have h2 := List.count_le_length q refs
        omega
      have happ : applySubOp (live, m) (SubOp.sub conn refs) =
          ((conn, refs) :: live, refs.foldl trackBoat m) := rfl
      rw [happ]
      apply ih
      · intro k
        rw [refCnt_cons k conn refs live]
        rw [Nat.add_comm (refs.count k) (refCnt k live)]
        exact trackBoats_fold_agrees refs m (fun q => refCnt q live) hm hb2 k
      · intro k
        rw [refCnt_cons k conn refs live]
        have h1 := hb k
        have h2 := List.count_le_length k refs
        omega
    | unsub conn =>
      cases hf : live.find? (fun p => p.1 = conn) with
      | none =>
        have happ : applySubOp (live, m) (SubOp.unsub conn) = (live, m) := by
          simp [applySubOp, hf]
        rw [happ]
        apply ih live m hm
        intro k
        have h1 := hb k
        have ht : totalSubRefs (SubOp.unsub conn :: rest) = totalSubRefs rest := rfl
        omega
      | some p =>
        have happ : applySubOp (live, m) (SubOp.unsub conn) =
            (live.eraseP (fun q => q.1 = conn), p.2.foldl untrackBoat m) := by
          simp [applySubOp, hf]
        rw [happ]
        have hsum := refCnt_eraseP conn live p hf
        have hle : ∀ q, p.2.count q ≤ refCnt q live := by
          intro q
          have := hsum q
          omega
        have hbq : ∀ q, refCnt q live < 2^64 := by
          intro q
          have := hb q
          omega
        apply ih
        · intro k
          have hkey : refCnt k (live.eraseP (fun q => q.1 = conn)) =
              refCnt k live - p.2.count k := by
            have := hsum k
            omega
          rw [hkey]
          exact untrackBoats_fold_agrees p.2 m (fun q => refCnt q live) hm hle hbq k
        · intro k
          have h1 := hb k
          have h2 := hsum k
          have ht : totalSubRefs (SubOp.unsub conn :: rest) = totalSubRefs rest := rfl
          omega

/-- C4: for every sequence of subscribe and unsubscribe events (with fewer
total references than the uint64 wrap bound, so the counters cannot wrap),
the tracked-boats map built by trackBoat and untrackBoat stores, for each
key, exactly the number of not-yet-unsubscribed references naming that key:
the stored count equals that number, every stored count is positive (never
zero, and as a natural never negative), and a key's entry is absent exactly
when its reference count is zero - it is removed precisely when the count
reaches zero. -/
theorem c4_tracked_refcount_invariant (ops : List SubOp)
    (hb : totalSubRefs ops < 2^64) :
    TrackedAgrees (runSubOps ([], emptyTracked) ops).1
        (runSubOps ([], emptyTracked) ops).2 ∧
      (∀ k c, (runSubOps ([], emptyTracked) ops).2 k = some c →
        0 < c ∧ c = refCnt k (runSubOps ([], emptyTracked) ops).1) ∧
      (∀ k, (runSubOps ([], emptyTracked) ops).2 k = none ↔
        refCnt k (runSubOps ([], emptyTracked) ops).1 = 0) := by
  have hbase : TrackedAgrees [] emptyTracked := by
    intro k
    simp [refCnt, emptyTracked]
  have hagr := runSubOps_agrees ops [] emptyTracked hbase
    (by
      intro k
      simp only [refCnt, List.map_nil, List.sum_nil, Nat.zero_add]
      exact hb)
  refine ⟨hagr, ?_, ?_⟩
  · intro k c hk
    have := hagr k
    rw [hk] at this
    by_cases hz : refCnt k (runSubOps ([], emptyTracked) ops).1 = 0
    · rw [if_pos hz] at this
      exact Option.noConfusion this
    · rw [if_neg hz] at this
      have hc : c = refCnt k (runSubOps ([], emptyTracked) ops).1 :=
        Option.some_inj.mp this
      exact ⟨by omega, hc⟩
  · intro k
    have := hagr k
    constructor
    · intro hk
      rw [hk] at this
      by_cases hz : refCnt k (runSubOps ([], emptyTracked) ops).1 = 0
      · exact hz
      · rw [if_neg hz] at this
        exact Option.noConfusion this
    · intro hz
      rw [this, if_pos hz]

/-- The event sequence used by the C4 witness: two subscriptions referencing
a shared key (one plain, one with a two-key roster), then one unsubscribe. -/
def subOpsEx : List SubOp :=
  [SubOp.sub 1 ["k"], SubOp.sub 2 ["k", "g"], SubOp.unsub 1]

/-- Witness for C4 on the concrete event sequence subOpsEx. -/
theorem c4_tracked_refcount_invariant_witness :
    totalSubRefs subOpsEx < 2^64 ∧
      (TrackedAgrees (runSubOps ([], emptyTracked) subOpsEx).1
          (runSubOps ([], emptyTracked) subOpsEx).2 ∧
        (∀ k c, (runSubOps ([], emptyTracked) subOpsEx).2 k = some c →
          0 < c ∧ c = refCnt k (runSubOps ([], emptyTracked) subOpsEx).1) ∧
        (∀ k, (runSubOps ([], emptyTracked) subOpsEx).2 k = none ↔
          refCnt k (runSubOps ([], emptyTracked) subOpsEx).1 = 0)) :=
  ⟨by norm_num [subOpsEx, totalSubRefs],
    c4_tracked_refcount_invariant subOpsEx (by norm_num [subOpsEx, totalSubRefs])⟩
